import Mathlib

/-!
# OclKawPowRunner: dataset regeneration and search dispatch

A shallow embedding of `src/backend/opencl/runners/OclKawPowRunner.cpp`.

* The runner object is a record of its `m_*` members, together with the bytes
  held by the device buffer `m_input` and the next unused `cl_mem` handle.
* Every OpenCL / cache call the two methods make is recorded as an `Event`.
  A call that can throw consults a failure oracle `fails : Event → Bool`;
  a throwing call ends the method with status `raised`, keeping every member
  assignment made before it (C++ exceptions do not undo assignments).
* 32-bit members and locals are natural numbers reduced modulo `2 ^ 32`
  wherever the source narrows or can overflow.
* The `for` loop over DAG chunks is run with fuel; status `outOfFuel` means
  the loop was still running when the fuel ran out.
-/

namespace xmrig

/-- Values the translation unit takes from other headers (`KPHash.h`,
`KPCache`, `VirtualMemory.h`, `OclKawPow.h`, `ethash_internal.h`): they are
parameters of the embedding. -/
structure Externals where
  /-- `KPHash::EPOCH_LENGTH` -/
  EPOCH_LENGTH : Nat
  /-- `sizeof(node)` -/
  sizeofNode : Nat
  /-- `sizeof(m_blob)`, the size of a `uint8_t *` -/
  sizeofPtr : Nat
  /-- `KPCache::dag_size(epoch)` -/
  dag_size : Nat → Nat
  /-- `KPCache::s_cache.size()` once `KPCache::s_cache.init(epoch)` has run -/
  cacheSize : Nat → Nat
  /-- `VirtualMemory::align(pos, align)` -/
  align : Nat → Nat → Nat
  /-- The default second argument of `VirtualMemory::align` -/
  defaultAlign : Nat
  /-- `OclKawPow::get(*this, height)` -/
  program : Nat → Nat

/-- The part of `Job` that `set` reads. -/
structure Job where
  height : Nat
  target : Nat

/-- The host memory a buffer write copies from: `KPCache::s_cache.data()`,
`m_blob`, or the local `zero` of `run`. -/
inductive HostPtr where
  | cache
  | blob
  | zero
  deriving DecidableEq, Repr

/-- Commands issued to the OpenCL runtime and to the shared light cache.
`dagEnqueue start threads wg` stands for the pair
`m_calculateDagKernel->setArg(0, sizeof(start), &start)`,
`m_calculateDagKernel->enqueue(m_queue, threads, wg)`; `createBuffer mem size
readOnly` records the handle returned and whether the flag is
`CL_MEM_READ_ONLY` (otherwise `CL_MEM_READ_WRITE`). -/
inductive Event where
  | getProgram (height : Nat)
  | createKernel (program kernel : Nat)
  | release (mem : Nat)
  | createBuffer (mem size : Nat) (readOnly : Bool)
  | cacheInit (epoch : Nat)
  | writeBuffer (mem : Nat) (blocking : Bool) (offset size : Nat) (src : HostPtr)
  | dagSetArgs (start lightCache dag dag_words light_words : Nat)
  | dagEnqueue (start threads workGroup : Nat)
  | finish
  | setKernelArg (kernel index value : Nat)
  | ndRange (kernel offset globalSize localSize : Nat)
  | readBuffer (mem : Nat) (blocking : Bool) (offset size : Nat)
  deriving DecidableEq, Repr

/-- How a method invocation ended. -/
inductive Status where
  | done
  | raised (cmd : Event)
  | outOfFuel
  deriving DecidableEq, Repr

/-- The members of `OclKawPowRunner` (and of its base class) used by `run` and
`set`; `input` is the content of the device buffer `m_input`, `nextMem` the
next handle the OpenCL runtime hands out. -/
structure OclKawPowRunner where
  m_intensity : Nat
  m_workGroupSize : Nat
  m_blockHeight : Nat
  m_epoch : Nat
  m_dagCapacity : Nat
  m_lightCacheCapacity : Nat
  m_lightCacheSize : Nat
  m_dag : Nat
  m_lightCache : Nat
  m_searchProgram : Nat
  m_searchKernel : Nat
  m_input : Nat
  m_output : Nat
  m_blob : List Nat
  input : List Nat
  nextMem : Nat

/-- The runner after a code fragment, the commands the fragment issued, and
how it ended. -/
structure Outcome where
  st : OclKawPowRunner
  out : List Event
  status : Status

/-- Sequential composition: the rest of the method runs only when the first
fragment ended normally. -/
def Outcome.andThen (a : Outcome) (f : OclKawPowRunner → Outcome) : Outcome :=
  match a.status with
  | .done => { st := (f a.st).st, out := a.out ++ (f a.st).out, status := (f a.st).status }
  | _ => a

/-- A call that cannot throw. -/
def emit (e : Event) (s : OclKawPowRunner) : Outcome :=
  { st := s, out := [e], status := .done }

/-- A call that throws when the oracle says so. -/
def issue (fails : Event → Bool) (e : Event) (s : OclKawPowRunner) : Outcome :=
  if fails e then { st := s, out := [], status := .raised e }
  else { st := s, out := [e], status := .done }

/-- A fragment that only assigns members. -/
def assign (s : OclKawPowRunner) : Outcome :=
  { st := s, out := [], status := .done }

/-- The effect of `enqueueWriteBuffer(buf, _, 0, size, src)` on the bytes of
the destination buffer. -/
def writeBytes (dst : List Nat) (size : Nat) (src : List Nat) : List Nat :=
  src.take size ++ dst.drop size

/-- The constant `N` of `set`: `constexpr uint32_t N = 1 << 18`. -/
def N : Nat := 1 <<< 18

/-- The epoch `set` computes for a job: `m_blockHeight / KPHash::EPOCH_LENGTH`
with `m_blockHeight = static_cast<uint32_t>(job.height())`. -/
def epochOf (x : Externals) (job : Job) : Nat :=
  (job.height % 2 ^ 32) / x.EPOCH_LENGTH

/-- The local `dag_words` of `set`: `const uint32_t dag_words = dag_size / sizeof(node)`. -/
def dagWords (x : Externals) (epoch : Nat) : Nat :=
  (x.dag_size epoch / x.sizeofNode) % 2 ^ 32

/-- Lines 103-105 of `set`. -/
def set_program (x : Externals) (fails : Event → Bool) (job : Job)
    (s : OclKawPowRunner) : Outcome :=
  let s1 := { s with m_blockHeight := job.height % 2 ^ 32 }
  (issue fails (.getProgram s1.m_blockHeight) s1).andThen fun s2 =>
  let s3 := { s2 with m_searchProgram := x.program s2.m_blockHeight }
  (issue fails (.createKernel s3.m_searchProgram s3.nextMem) s3).andThen fun s4 =>
  assign { s4 with m_searchKernel := s4.nextMem, nextMem := s4.nextMem + 1 }

/-- Lines 109-115 of `set`: grow the dataset buffer. -/
def set_dag (x : Externals) (fails : Event → Bool) (epoch : Nat)
    (s : OclKawPowRunner) : Outcome :=
  let dag_size := x.dag_size epoch
  if dag_size > s.m_dagCapacity then
    (emit (.release s.m_dag) s).andThen fun s1 =>
    let s2 := { s1 with m_dagCapacity := x.align dag_size (16 * 1024 * 1024) }
    (issue fails (.createBuffer s2.nextMem s2.m_dagCapacity false) s2).andThen fun s3 =>
    assign { s3 with m_dag := s3.nextMem, nextMem := s3.nextMem + 1 }
  else assign s

/-- Lines 125-130 of `set`: grow the light-cache buffer. -/
def set_lightCache_grow (x : Externals) (fails : Event → Bool) (epoch : Nat)
    (s1 : OclKawPowRunner) : Outcome :=
  if x.cacheSize epoch > s1.m_lightCacheCapacity then
    (emit (.release s1.m_lightCache) s1).andThen fun s2 =>
    let s3 := { s2 with m_lightCacheCapacity := x.align (x.cacheSize epoch) x.defaultAlign }
    (issue fails (.createBuffer s3.nextMem s3.m_lightCacheCapacity true) s3).andThen fun s4 =>
    assign { s4 with m_lightCache := s4.nextMem, nextMem := s4.nextMem + 1 }
  else assign s1

/-- Lines 120-134 of `set`: initialise the shared light cache and upload it. -/
def set_lightCache (x : Externals) (fails : Event → Bool) (epoch : Nat)
    (s : OclKawPowRunner) : Outcome :=
  (issue fails (.cacheInit epoch) s).andThen fun s1 =>
  (set_lightCache_grow x fails epoch s1).andThen fun s5 =>
  let s6 := { s5 with m_lightCacheSize := x.cacheSize epoch }
  issue fails (.writeBuffer s6.m_lightCache true 0 s6.m_lightCacheSize .cache) s6

/-- Lines 143-146 of `set`:
`for (uint32_t start = 0; start < dag_words; start += N)`, entered at the
loop test with the given value of `start`. -/
def dagLoop (fails : Event → Bool) (s : OclKawPowRunner) (dag_words : Nat) :
    Nat → Nat → Outcome
  | 0, _ => { st := s, out := [], status := .outOfFuel }
  | fuel + 1, start =>
    if start < dag_words then
      (issue fails (.dagEnqueue start N s.m_workGroupSize) s).andThen fun _ =>
      dagLoop fails s dag_words fuel ((start + N) % 2 ^ 32)
    else assign s

/-- Lines 117-151 of `set`: regenerate the dataset when the epoch changed. -/
def set_regenerate (x : Externals) (fails : Event → Bool) (fuel : Nat) (epoch : Nat)
    (s : OclKawPowRunner) : Outcome :=
  if epoch ≠ s.m_epoch then
    let s1 := { s with m_epoch := epoch }
    (set_lightCache x fails epoch s1).andThen fun s2 =>
    let dag_words := dagWords x epoch
    (emit (.dagSetArgs 0 s2.m_lightCache s2.m_dag dag_words
        (s2.m_lightCacheSize / x.sizeofNode)) s2).andThen fun s3 =>
    (dagLoop fails s3 dag_words fuel 0).andThen fun s4 =>
    emit .finish s4
  else assign s

/-- Lines 153-163 of `set`: bind the search kernel arguments and upload the blob. -/
def set_bind (x : Externals) (fails : Event → Bool) (job : Job) (blob : List Nat)
    (s : OclKawPowRunner) : Outcome :=
  let target := job.target % 2 ^ 64
  let hack_false := 0
  (emit (.setKernelArg s.m_searchKernel 0 s.m_dag) s).andThen fun s =>
  (emit (.setKernelArg s.m_searchKernel 1 s.m_input) s).andThen fun s =>
  (emit (.setKernelArg s.m_searchKernel 2 target) s).andThen fun s =>
  (emit (.setKernelArg s.m_searchKernel 3 hack_false) s).andThen fun s =>
  (emit (.setKernelArg s.m_searchKernel 4 s.m_output) s).andThen fun s =>
  let s1 := { s with m_blob := blob }
  (issue fails (.writeBuffer s1.m_input true 0 x.sizeofPtr .blob) s1).andThen fun s2 =>
  assign { s2 with input := writeBytes s2.input x.sizeofPtr s2.m_blob }

/-- The method `OclKawPowRunner::set(const Job &job, uint8_t *blob)`. -/
def set (x : Externals) (fails : Event → Bool) (fuel : Nat) (s : OclKawPowRunner)
    (job : Job) (blob : List Nat) : Outcome :=
  (set_program x fails job s).andThen fun s1 =>
  let epoch := s1.m_blockHeight / x.EPOCH_LENGTH
  (set_dag x fails epoch s1).andThen fun s2 =>
  (set_regenerate x fails fuel epoch s2).andThen fun s3 =>
  set_bind x fails job blob s3

/-- One `set` invocation of a sequence: its oracle, fuel, job and blob. -/
structure SetCall where
  fails : Event → Bool
  fuel : Nat
  job : Job
  blob : List Nat

/-- A sequence of `set` invocations on one runner; it stops at the first
invocation that does not return normally. -/
def setSeq (x : Externals) : OclKawPowRunner → List SetCall → Outcome
  | s, [] => assign s
  | s, c :: rest =>
    (set x c.fails c.fuel s c.job c.blob).andThen fun s1 => setSeq x s1 rest

/-- Word `i` of an array of 32-bit words becomes `v`. -/
def storeWord (mem : Nat → Nat) (i v : Nat) : Nat → Nat :=
  fun j => if j = i then v else mem j

/-- The call `memcpy(dst, src + srcOff, count * sizeof(uint32_t))` on word
arrays; `none` when a word outside `src` would be read. -/
def memcpyWords (dst : Nat → Nat) (src : List Nat) (srcOff : Nat) :
    Nat → Option (Nat → Nat)
  | 0 => some dst
  | k + 1 =>
    match memcpyWords dst src srcOff k, src[srcOff + k]? with
    | some d, some w => some (storeWord d k w)
    | _, _ => none

/-- The local array `uint32_t output[16]` once `enqueueReadBuffer(m_output,
CL_TRUE, 0, sizeof(output), output)` has filled it from the device words. -/
def readOutput (device : Nat → Nat) : List Nat :=
  (List.range 16).map device

/-- Lines 92-97 of `run`: clamp the count, report it in slot `0xFF`, copy the
results. `none` when a word outside `output` would be read. -/
def run_report (output : List Nat) (hashOutput : Nat → Nat) : Option (Nat → Nat) :=
  let output := if output.getD 0 0 > 15 then output.set 0 15 else output
  let hashOutput := storeWord hashOutput 0xFF (output.getD 0 0)
  memcpyWords hashOutput output 1 (output.getD 0 0)

/-- Lines 72-90 of `run`: the two buffer writes, the search dispatch and the
blocking read. -/
def run_dispatch (fails : Event → Bool) (s : OclKawPowRunner) (nonce : Nat) : Outcome :=
  let local_work_size := 128
  let global_work_offset := nonce
  let global_work_size := s.m_intensity - (s.m_intensity % local_work_size)
  (issue fails (.writeBuffer s.m_input false 0 40 .blob) s).andThen fun s1 =>
  let s2 := { s1 with input := writeBytes s1.input 40 s1.m_blob }
  (issue fails (.writeBuffer s2.m_output false 0 4 .zero) s2).andThen fun s3 =>
  (issue fails (.ndRange s3.m_searchKernel global_work_offset global_work_size
      local_work_size) s3).andThen fun s4 =>
  issue fails (.readBuffer s4.m_output true 0 64) s4

/-- The method `OclKawPowRunner::run(uint32_t nonce, uint32_t *hashOutput)`:
the runner outcome and the caller's array afterwards (`none` when the method
would read outside `output`). `device` gives the words of `m_output` at the
time of the blocking read. -/
def run (fails : Event → Bool) (device : Nat → Nat) (s : OclKawPowRunner)
    (nonce : Nat) (hashOutput : Nat → Nat) : Outcome × Option (Nat → Nat) :=
  let o := run_dispatch fails s nonce
  match o.status with
  | .done => (o, run_report (readOutput device) hashOutput)
  | _ => (o, some hashOutput)

/-- Modelled from the spec: the word range a chunk dispatch generates (the
kernel is OpenCL code of another file). Work item `gid` of a dispatch issued
with `start` produces word `start + gid`, so the dispatch covers
`[start, start + threads)`. -/
def Event.covers : Event → Nat → Bool
  | .dagEnqueue start threads _, i => decide (start ≤ i ∧ i < start + threads)
  | _, _ => false

/-- Commands that belong to the dataset regeneration of `set` (lines 117-151):
light-cache init, light-cache upload, the argument binding of the generation
kernel, chunk dispatches and the final `finish`. -/
def Event.isRegeneration : Event → Bool
  | .cacheInit _ => true
  | .writeBuffer _ _ _ _ .cache => true
  | .dagSetArgs _ _ _ _ _ => true
  | .dagEnqueue _ _ _ => true
  | .finish => true
  | _ => false

/-- Chunk dispatches of the generation kernel. -/
def Event.isDagDispatch : Event → Bool
  | .dagEnqueue _ _ _ => true
  | _ => false

/-- The steps of an epoch transition that can throw: light-cache init,
creation of the (read-only) light-cache buffer, light-cache upload, and a
chunk dispatch. -/
def Event.isTransitionStep : Event → Bool
  | .cacheInit _ => true
  | .createBuffer _ _ true => true
  | .writeBuffer _ _ _ _ .cache => true
  | .dagEnqueue _ _ _ => true
  | _ => false

/-- Commands that bind the search kernel or upload the header blob (lines
156-163 of `set`). -/
def Event.isJobBinding : Event → Bool
  | .setKernelArg _ _ _ => true
  | .writeBuffer _ _ _ _ .blob => true
  | _ => false

/-- A runner used to evaluate the methods on concrete inputs: an NVIDIA device
(`m_workGroupSize = 32`), intensity 1000, last-seen epoch 0, no buffer
allocated yet, `m_input` holding 40 zero bytes. -/
def sampleRunner : OclKawPowRunner :=
  { m_intensity := 1000, m_workGroupSize := 32, m_blockHeight := 0, m_epoch := 0,
    m_dagCapacity := 0, m_lightCacheCapacity := 0, m_lightCacheSize := 0,
    m_dag := 0, m_lightCache := 0, m_searchProgram := 0, m_searchKernel := 0,
    m_input := 1, m_output := 2, m_blob := List.replicate 40 0,
    input := List.replicate 40 0, nextMem := 3 }

/-- The oracle under which no call throws. -/
def noFailure : Event → Bool := fun _ => false

/-- Device words with a counter above the capacity of the result block:
word 0 is 20, word `i` is `100 + i`. -/
def sampleDevice : Nat → Nat := fun i => if i = 0 then 20 else 100 + i

/-- A caller array holding 7 in every slot. -/
def sampleHashOutput : Nat → Nat := fun _ => 7

/-- A small test configuration: epochs of 7500 blocks, 64-byte nodes, 8-byte
pointers, a dataset of `2^18 + 10 + 2 * epoch` nodes, a light cache of
`16 + epoch` nodes, and an `align` that rounds up to the next multiple. -/
def sampleExternals : Externals :=
  { EPOCH_LENGTH := 7500, sizeofNode := 64, sizeofPtr := 8,
    dag_size := fun epoch => 64 * (2 ^ 18 + 10) + 128 * epoch,
    cacheSize := fun epoch => 1024 + 64 * epoch,
    align := fun pos a => pos + (a - pos % a) % a,
    defaultAlign := 2097152,
    program := fun height => 1000 + height / 7500 }

/-- A job of epoch 1. -/
def sampleJob : Job := { height := 7500, target := 1000 }

/-- A 40-byte header blob holding 255 in every byte. -/
def sampleBlob : List Nat := List.replicate 40 255

/-- The test configuration with a dataset of `2^32 - 1` nodes in every epoch. -/
def hugeExternals : Externals :=
  { sampleExternals with dag_size := fun _ => 64 * (2 ^ 32 - 1) }

/-- A job of epoch 0, the epoch `sampleRunner` already has. -/
def sampleJob0 : Job := { height := 10, target := 1000 }

theorem N_eq : N = 262144 := by decide

theorem andThen_of_done (a : Outcome) (f : OclKawPowRunner → Outcome)
    (h : a.status = .done) :
    a.andThen f = { st := (f a.st).st, out := a.out ++ (f a.st).out,
                    status := (f a.st).status } := by
  unfold Outcome.andThen; rw [h]

theorem andThen_of_not_done (a : Outcome) (f : OclKawPowRunner → Outcome)
    (h : a.status ≠ .done) : a.andThen f = a := by
  unfold Outcome.andThen
  split
  · contradiction
  · rfl

theorem andThen_status_done (a : Outcome) (f : OclKawPowRunner → Outcome) :
    (a.andThen f).status = .done ↔ a.status = .done ∧ (f a.st).status = .done := by
  by_cases h : a.status = .done
  · rw [andThen_of_done a f h]; simp [h]
  · rw [andThen_of_not_done a f h]; simp [h]

@[simp] theorem emit_andThen (e : Event) (s : OclKawPowRunner)
    (f : OclKawPowRunner → Outcome) :
    (emit e s).andThen f = { st := (f s).st, out := e :: (f s).out, status := (f s).status } := by
  simp [emit, Outcome.andThen]

@[simp] theorem assign_andThen (s : OclKawPowRunner) (f : OclKawPowRunner → Outcome) :
    (assign s).andThen f = f s := by
  simp [assign, Outcome.andThen]

theorem issue_andThen_ok (fails : Event → Bool) (e : Event) (s : OclKawPowRunner)
    (f : OclKawPowRunner → Outcome) (h : fails e = false) :
    (issue fails e s).andThen f =
      { st := (f s).st, out := e :: (f s).out, status := (f s).status } := by
  simp [issue, h, Outcome.andThen]

theorem issue_andThen_fail (fails : Event → Bool) (e : Event) (s : OclKawPowRunner)
    (f : OclKawPowRunner → Outcome) (h : fails e = true) :
    (issue fails e s).andThen f = { st := s, out := [], status := .raised e } := by
  simp [issue, h, Outcome.andThen]

@[simp] theorem issue_st (fails : Event → Bool) (e : Event) (s : OclKawPowRunner) :
    (issue fails e s).st = s := by
  unfold issue; split <;> rfl

theorem issue_status_done (fails : Event → Bool) (e : Event) (s : OclKawPowRunner) :
    (issue fails e s).status = .done ↔ fails e = false := by
  unfold issue; split <;> simp_all

theorem issue_andThen (fails : Event → Bool) (e : Event) (s : OclKawPowRunner)
    (f : OclKawPowRunner → Outcome) :
    (issue fails e s).andThen f =
      if fails e = true then { st := s, out := [], status := .raised e }
      else { st := (f s).st, out := e :: (f s).out, status := (f s).status } := by
  by_cases h : fails e = true
  · rw [if_pos h, issue_andThen_fail _ _ _ _ h]
  · have h2 : fails e = false := by simpa using h
    rw [if_neg h, issue_andThen_ok _ _ _ _ h2]

theorem issue_eq (fails : Event → Bool) (e : Event) (s : OclKawPowRunner) :
    issue fails e s =
      if fails e = true then { st := s, out := [], status := .raised e }
      else { st := s, out := [e], status := .done } := by
  unfold issue; rfl

theorem andThen_st_out (a : Outcome) (f : OclKawPowRunner → Outcome)
    (h : (a.andThen f).status = .done) :
    a.status = .done ∧ (f a.st).status = .done ∧
      (a.andThen f).st = (f a.st).st ∧ (a.andThen f).out = a.out ++ (f a.st).out := by
  have h1 := (andThen_status_done a f).1 h
  refine ⟨h1.1, h1.2, ?_, ?_⟩ <;> rw [andThen_of_done a f h1.1]

/-- A property of the runner state and of the issued commands carries over a
sequential composition. -/
theorem andThen_inv (I : OclKawPowRunner → Prop) (Q : Event → Prop)
    (a : Outcome) (f : OclKawPowRunner → Outcome)
    (ha : I a.st ∧ ∀ e ∈ a.out, Q e)
    (hf : I a.st → I (f a.st).st ∧ ∀ e ∈ (f a.st).out, Q e) :
    I (a.andThen f).st ∧ ∀ e ∈ (a.andThen f).out, Q e := by
  by_cases h : a.status = .done
  · rw [andThen_of_done a f h]
    refine ⟨(hf ha.1).1, ?_⟩
    intro e he
    rcases List.mem_append.1 he with h1 | h1
    · exact ha.2 e h1
    · exact (hf ha.1).2 e h1
  · rw [andThen_of_not_done a f h]; exact ha

theorem andThen_st_inv (I : OclKawPowRunner → Prop) (a : Outcome)
    (f : OclKawPowRunner → Outcome) (ha : I a.st) (hf : I a.st → I (f a.st).st) :
    I (a.andThen f).st :=
  (andThen_inv I (fun _ => True) a f ⟨ha, fun _ _ => trivial⟩
    (fun h => ⟨hf h, fun _ _ => trivial⟩)).1

/-! ## The chunk loop -/

/-- The loop entered at `start` with `m` chunks left and no failing dispatch
issues the `m` dispatches `start, start + N, ...` and ends normally. -/
theorem dagLoop_run (fails : Event → Bool) (s : OclKawPowRunner) (dag_words : Nat)
    (hw : dag_words + 2 ^ 18 ≤ 2 ^ 32)
    (hok : ∀ st, fails (.dagEnqueue st N s.m_workGroupSize) = false) :
    ∀ (m fuel start : Nat), m < fuel → dag_words ≤ start + m * N →
      (m = 0 ∨ start + (m - 1) * N < dag_words) →
      dagLoop fails s dag_words fuel start =
        { st := s,
          out := (List.range m).map
            (fun k => Event.dagEnqueue (start + k * N) N s.m_workGroupSize),
          status := .done } := by
  intro m
  induction m with
  | zero =>
    intro fuel start hf hle _
    obtain ⟨f, rfl⟩ : ∃ f, fuel = f + 1 := ⟨fuel - 1, by omega⟩
    have : ¬ start < dag_words := by omega
    simp [dagLoop, this, assign]
  | succ m ih =>
    intro fuel start hf hle hlt
    obtain ⟨f, rfl⟩ : ∃ f, fuel = f + 1 := ⟨fuel - 1, by omega⟩
    have hN := N_eq
    have hlt2 : start + m * N < dag_words := by
      rcases hlt with h | h
      · omega
      · simpa using h
    have hs : start < dag_words := by
      have : 0 ≤ m * N := Nat.zero_le _
      omega
    have hmod : (start + N) % 2 ^ 32 = start + N := by
      apply Nat.mod_eq_of_lt
      omega
    have hrec := ih f (start + N) (by omega)
      (by rw [Nat.succ_mul] at hle; omega)
      (by
        rcases Nat.eq_zero_or_pos m with h0 | hpos
        · exact Or.inl h0
        · right
          have h1 := Nat.succ_mul (m - 1) N
          rw [Nat.succ_eq_add_one, Nat.sub_add_cancel hpos] at h1
          omega)
    rw [dagLoop, if_pos hs, issue_andThen_ok _ _ _ _ (hok start), hmod, hrec]
    simp only [Outcome.mk.injEq, true_and, and_true]
    rw [List.range_succ_eq_map, List.map_cons, List.map_map]
    simp only [Nat.zero_mul, Nat.add_zero, List.cons.injEq, true_and]
    apply List.map_congr_left
    intro k _
    simp only [Function.comp, Nat.succ_mul]
    rw [show start + N + k * N = start + (k * N + N) by omega]

theorem countP_range_eq (c : Nat) (q : Nat → Bool) (hq : ∀ k, q k = true ↔ k = c) :
    ∀ n, (List.range n).countP q = if c < n then 1 else 0 := by
  intro n
  induction n with
  | zero => simp
  | succ n ih =>
    rw [List.range_succ, List.countP_append, ih]
    by_cases hc : n = c
    · subst hc
      have : q n = true := (hq n).2 rfl
      simp [List.countP_cons, this]
    · have hqn : ¬ q n = true := fun h => hc ((hq n).1 h)
      have : (c < n + 1) ↔ c < n := by omega
      simp [List.countP_cons, hqn, this]

/-- C1: for `dag_words + 2^18 ≤ 2^32` the chunk loop of `set` ends normally
after exactly `ceil(dag_words / 2^18)` dispatches, whose start values are
`0, N, 2N, ...` in this order; the ranges `[start, start + N)` of different
dispatches are disjoint, and every word index below `dag_words` is covered by
exactly one dispatch. -/
theorem dag_chunks_cover (fails : Event → Bool) (s : OclKawPowRunner)
    (dag_words fuel : Nat) (hw : dag_words + 2 ^ 18 ≤ 2 ^ 32)
    (hok : ∀ st, fails (.dagEnqueue st N s.m_workGroupSize) = false)
    (hfuel : (dag_words + N - 1) / N < fuel) :
    (dagLoop fails s dag_words fuel 0).status = .done ∧
    (dagLoop fails s dag_words fuel 0).out =
      (List.range ((dag_words + N - 1) / N)).map
        (fun k => Event.dagEnqueue (k * N) N s.m_workGroupSize) ∧
    (dagLoop fails s dag_words fuel 0).out.length = (dag_words + N - 1) / N ∧
    (dagLoop fails s dag_words fuel 0).out.Pairwise
      (fun a b => ∀ i, ¬ (a.covers i = true ∧ b.covers i = true)) ∧
    ∀ i, i < dag_words →
      ((dagLoop fails s dag_words fuel 0).out.filter (fun e => e.covers i)).length = 1 := by
  have hN := N_eq
  have hrun := dagLoop_run fails s dag_words hw hok ((dag_words + N - 1) / N) fuel 0 hfuel
    (by rw [hN]; omega) (by rw [hN]; omega)
  simp only [Nat.zero_add] at hrun
  rw [hrun]
  refine ⟨rfl, rfl, by simp, ?_, ?_⟩
  · rw [List.pairwise_map]
    refine (List.pairwise_lt_range _).imp ?_
    intro a b hab i
    simp only [Event.covers, decide_eq_true_eq]
    have : (a + 1) * N ≤ b * N := Nat.mul_le_mul_right N hab
    rw [Nat.succ_mul] at this
    omega
  · intro i hi
    rw [← List.countP_eq_length_filter, List.countP_map]
    rw [countP_range_eq (i / N)]
    · rw [if_pos]
      rw [hN]
      omega
    · intro k
      simp only [Function.comp, Event.covers, decide_eq_true_eq]
      rw [hN]
      omega

/-- Witness for C1: `dag_words = 2^18 + 10` gives the two dispatches with
start 0 and 2^18, and index `2^18 + 9` is covered once. -/
theorem dag_chunks_cover_witness :
    (2 ^ 18 + 10) + 2 ^ 18 ≤ 2 ^ 32 ∧
    (dagLoop noFailure sampleRunner (2 ^ 18 + 10) 3 0).status = .done ∧
    (dagLoop noFailure sampleRunner (2 ^ 18 + 10) 3 0).out =
      [Event.dagEnqueue 0 N 32, Event.dagEnqueue (2 ^ 18) N 32] ∧
    ((dagLoop noFailure sampleRunner (2 ^ 18 + 10) 3 0).out.filter
      (fun e => e.covers (2 ^ 18 + 9))).length = 1 := by
  have h := dag_chunks_cover noFailure sampleRunner (2 ^ 18 + 10) 3 (by decide)
    (fun _ => rfl) (by decide)
  refine ⟨by decide, h.1, ?_, h.2.2.2.2 _ (by decide)⟩
  rw [h.2.1]
  decide

/-! ## The search dispatch and its report -/

theorem memcpyWords_eq (dst : Nat → Nat) (src : List Nat) (srcOff : Nat) (f : Nat → Nat) :
    ∀ count, (∀ k, k < count → src[srcOff + k]? = some (f (srcOff + k))) →
      memcpyWords dst src srcOff count =
        some (fun j => if j < count then f (srcOff + j) else dst j) := by
  intro count
  induction count with
  | zero => intro _; simp [memcpyWords]
  | succ n ih =>
    intro h
    rw [memcpyWords, ih (fun k hk => h k (by omega)), h n (by omega)]
    simp only [Option.some.injEq]
    funext j
    unfold storeWord
    by_cases hj : j = n
    · subst hj; simp
    · have : j < n + 1 ↔ j < n := by omega
      simp [hj, this]

/-- What lines 92-97 of `run` leave in the caller's array, for every content
of the device words. -/
theorem run_report_eq (device : Nat → Nat) (hashOutput : Nat → Nat) :
    run_report (readOutput device) hashOutput =
      some (fun j => if j < min (device 0) 15 then device (1 + j)
                     else if j = 0xFF then min (device 0) 15 else hashOutput j) := by
  unfold run_report readOutput
  by_cases hc : device 0 > 15
  · have h0 : ((List.range 16).map device).getD 0 0 = device 0 := by
      simp [List.getD_eq_getElem?_getD]
    have h1 : (((List.range 16).map device).set 0 15).getD 0 0 = 15 := by
      simp [List.getD_eq_getElem?_getD]
    simp only [h0, hc, if_true, h1]
    rw [memcpyWords_eq _ _ 1 device 15]
    · have hm : min (device 0) 15 = 15 := by omega
      simp only [hm, storeWord]
    · intro k hk
      rw [List.getElem?_set_ne (by omega), List.getElem?_map,
        List.getElem?_range (by omega)]
      rfl
  · have h0 : ((List.range 16).map device).getD 0 0 = device 0 := by
      simp [List.getD_eq_getElem?_getD]
    simp only [h0, hc, if_false]
    rw [memcpyWords_eq _ _ 1 device (device 0)]
    · have hm : min (device 0) 15 = device 0 := by omega
      simp only [hm, storeWord]
    · intro k hk
      rw [List.getElem?_map, List.getElem?_range (by omega)]
      rfl

theorem run_fst (fails : Event → Bool) (device : Nat → Nat) (s : OclKawPowRunner)
    (nonce : Nat) (hashOutput : Nat → Nat) :
    (run fails device s nonce hashOutput).1 = run_dispatch fails s nonce := by
  simp only [run]
  cases (run_dispatch fails s nonce).status <;> rfl

theorem run_done_snd (fails : Event → Bool) (device : Nat → Nat) (s : OclKawPowRunner)
    (nonce : Nat) (hashOutput : Nat → Nat)
    (h : (run fails device s nonce hashOutput).1.status = .done) :
    (run fails device s nonce hashOutput).2 = run_report (readOutput device) hashOutput := by
  rw [run_fst] at h
  simp only [run, h]

theorem run_dispatch_out (fails : Event → Bool) (s : OclKawPowRunner) (nonce : Nat)
    (h : (run_dispatch fails s nonce).status = .done) :
    (run_dispatch fails s nonce).out =
      [.writeBuffer s.m_input false 0 40 .blob, .writeBuffer s.m_output false 0 4 .zero,
       .ndRange s.m_searchKernel nonce (s.m_intensity - s.m_intensity % 128) 128,
       .readBuffer s.m_output true 0 64] := by
  unfold run_dispatch at h ⊢
  simp only [andThen_status_done, issue_status_done, issue_st] at h
  obtain ⟨h1, h2, h3, h4⟩ := h
  simp only [issue_andThen_ok _ _ _ _ h1, issue_andThen_ok _ _ _ _ h2,
    issue_andThen_ok _ _ _ _ h3]
  simp [issue, h4]

/-- C2: whatever the device result block holds, the count a successful `run`
stores in `hashOutput[0xFF]` is `min(counter, 15)`, hence at most 15. -/
theorem run_count_clamped (fails : Event → Bool) (device : Nat → Nat)
    (s : OclKawPowRunner) (nonce : Nat) (hashOutput : Nat → Nat)
    (h : (run fails device s nonce hashOutput).1.status = .done) :
    ∃ result, (run fails device s nonce hashOutput).2 = some result ∧
      result 0xFF = min (device 0) 15 ∧ result 0xFF ≤ 15 := by
  rw [run_done_snd fails device s nonce hashOutput h, run_report_eq]
  refine ⟨_, rfl, ?_, ?_⟩
  · have : ¬ (0xFF < min (device 0) 15) := by omega
    simp only [this, if_false, if_true]
  · have : ¬ (0xFF < min (device 0) 15) := by omega
    simp only [this, if_false, if_true]
    omega

/-- Witness for C2: a device counter of 20 is reported as 15. -/
theorem run_count_clamped_witness :
    (run noFailure sampleDevice sampleRunner 5 sampleHashOutput).1.status = .done ∧
    ∃ result, (run noFailure sampleDevice sampleRunner 5 sampleHashOutput).2 = some result ∧
      result 0xFF = min (sampleDevice 0) 15 ∧ result 0xFF ≤ 15 :=
  ⟨by decide, run_count_clamped noFailure sampleDevice sampleRunner 5 sampleHashOutput
    (by decide)⟩

/-- C6: the search dispatch of a successful `run` has global offset `nonce`,
local size 128 and global size `intensity - intensity % 128`; this size is the
largest multiple of the local size not above the intensity. -/
theorem run_global_work_size (fails : Event → Bool) (device : Nat → Nat)
    (s : OclKawPowRunner) (nonce : Nat) (hashOutput : Nat → Nat)
    (h : (run fails device s nonce hashOutput).1.status = .done) :
    ∃ global_work_size local_work_size,
      (run fails device s nonce hashOutput).1.out =
        [.writeBuffer s.m_input false 0 40 .blob, .writeBuffer s.m_output false 0 4 .zero,
         .ndRange s.m_searchKernel nonce global_work_size local_work_size,
         .readBuffer s.m_output true 0 64] ∧
      global_work_size = s.m_intensity - s.m_intensity % local_work_size ∧
      local_work_size ∣ global_work_size ∧
      global_work_size ≤ s.m_intensity ∧
      s.m_intensity - global_work_size < local_work_size ∧
      ∀ m, local_work_size ∣ m → m ≤ s.m_intensity → m ≤ global_work_size := by
  rw [run_fst] at h ⊢
  refine ⟨s.m_intensity - s.m_intensity % 128, 128, run_dispatch_out fails s nonce h,
    rfl, ?_, ?_, ?_, ?_⟩
  · omega
  · omega
  · omega
  · intro m hm hle
    omega

/-- Witness for C6: intensity 1000 gives a global size of 896. -/
theorem run_global_work_size_witness :
    (run noFailure sampleDevice sampleRunner 5 sampleHashOutput).1.status = .done ∧
    ∃ global_work_size local_work_size,
      (run noFailure sampleDevice sampleRunner 5 sampleHashOutput).1.out =
        [.writeBuffer 1 false 0 40 .blob, .writeBuffer 2 false 0 4 .zero,
         .ndRange 0 5 global_work_size local_work_size,
         .readBuffer 2 true 0 64] ∧
      global_work_size = 1000 - 1000 % local_work_size ∧
      local_work_size ∣ global_work_size ∧
      global_work_size ≤ 1000 ∧
      1000 - global_work_size < local_work_size ∧
      ∀ m, local_work_size ∣ m → m ≤ 1000 → m ≤ global_work_size :=
  ⟨by decide, run_global_work_size noFailure sampleDevice sampleRunner 5 sampleHashOutput
    (by decide)⟩

/-- C7: a successful `run` copies `output[1..c]` to `hashOutput[0..c-1]` with
`c = min(output[0], 15)`, stores `c` in slot `0xFF`, leaves every other slot
as it was, and reads no word outside the 16-word block (the copy never
faults). -/
theorem run_result_frame (fails : Event → Bool) (device : Nat → Nat)
    (s : OclKawPowRunner) (nonce : Nat) (hashOutput : Nat → Nat)
    (h : (run fails device s nonce hashOutput).1.status = .done) :
    ∃ result, (run fails device s nonce hashOutput).2 = some result ∧
      (∀ i, i < min (device 0) 15 →
        result i = device (i + 1) ∧ (readOutput device)[i + 1]? = some (device (i + 1))) ∧
      result 0xFF = min (device 0) 15 ∧
      (∀ j, min (device 0) 15 ≤ j → j ≠ 0xFF → result j = hashOutput j) ∧
      min (device 0) 15 + 1 ≤ (readOutput device).length := by
  rw [run_done_snd fails device s nonce hashOutput h, run_report_eq]
  refine ⟨_, rfl, ?_, ?_, ?_, ?_⟩
  · intro i hi
    refine ⟨by simp only [hi, if_true, Nat.add_comm], ?_⟩
    unfold readOutput
    rw [List.getElem?_map, List.getElem?_range (by omega)]
    rfl
  · have : ¬ (0xFF < min (device 0) 15) := by omega
    simp only [this, if_false, if_true]
  · intro j hj hne
    have : ¬ (j < min (device 0) 15) := by omega
    simp only [this, hne, if_false]
  · simp only [readOutput, List.length_map, List.length_range]
    omega

/-- Witness for C7: with counter 20 the first 15 result words are copied, slot
15 and the slots above keep their content. -/
theorem run_result_frame_witness :
    (run noFailure sampleDevice sampleRunner 5 sampleHashOutput).1.status = .done ∧
    ∃ result, (run noFailure sampleDevice sampleRunner 5 sampleHashOutput).2 = some result ∧
      (∀ i, i < min (sampleDevice 0) 15 →
        result i = sampleDevice (i + 1) ∧
        (readOutput sampleDevice)[i + 1]? = some (sampleDevice (i + 1))) ∧
      result 0xFF = min (sampleDevice 0) 15 ∧
      (∀ j, min (sampleDevice 0) 15 ≤ j → j ≠ 0xFF → result j = sampleHashOutput j) ∧
      min (sampleDevice 0) 15 + 1 ≤ (readOutput sampleDevice).length :=
  ⟨by decide, run_result_frame noFailure sampleDevice sampleRunner 5 sampleHashOutput
    (by decide)⟩

/-! ## The phases of `set` -/

theorem set_eq (x : Externals) (fails : Event → Bool) (fuel : Nat) (s : OclKawPowRunner)
    (job : Job) (blob : List Nat) :
    set x fails fuel s job blob =
      (set_program x fails job s).andThen fun s1 =>
      (set_dag x fails (epochOf x job) s1).andThen fun s2 =>
      (set_regenerate x fails fuel (epochOf x job) s2).andThen fun s3 =>
      set_bind x fails job blob s3 := by
  have hb : (set_program x fails job s).st.m_blockHeight = job.height % 2 ^ 32 := by
    simp only [set_program, issue_andThen, assign]
    split_ifs <;> rfl
  unfold set
  by_cases h : (set_program x fails job s).status = .done
  · rw [andThen_of_done _ _ h, andThen_of_done _ _ h]
    simp only [hb, epochOf]
  · rw [andThen_of_not_done _ _ h, andThen_of_not_done _ _ h]

/-- The members `set_program` does not assign. -/
theorem set_program_frame (x : Externals) (fails : Event → Bool) (job : Job)
    (s : OclKawPowRunner) :
    (set_program x fails job s).st.m_epoch = s.m_epoch ∧
    (set_program x fails job s).st.m_dagCapacity = s.m_dagCapacity ∧
    (set_program x fails job s).st.m_lightCacheCapacity = s.m_lightCacheCapacity ∧
    (set_program x fails job s).st.m_lightCacheSize = s.m_lightCacheSize ∧
    (set_program x fails job s).st.m_dag = s.m_dag ∧
    (set_program x fails job s).st.m_lightCache = s.m_lightCache ∧
    (set_program x fails job s).st.m_blob = s.m_blob ∧
    (set_program x fails job s).st.input = s.input ∧
    (set_program x fails job s).st.m_workGroupSize = s.m_workGroupSize := by
  simp only [set_program, issue_andThen, assign]
  split_ifs <;> simp

/-- The members `set_dag` does not assign. -/
theorem set_dag_frame (x : Externals) (fails : Event → Bool) (epoch : Nat)
    (s : OclKawPowRunner) :
    (set_dag x fails epoch s).st.m_epoch = s.m_epoch ∧
    (set_dag x fails epoch s).st.m_lightCacheCapacity = s.m_lightCacheCapacity ∧
    (set_dag x fails epoch s).st.m_lightCacheSize = s.m_lightCacheSize ∧
    (set_dag x fails epoch s).st.m_lightCache = s.m_lightCache ∧
    (set_dag x fails epoch s).st.m_blob = s.m_blob ∧
    (set_dag x fails epoch s).st.input = s.input ∧
    (set_dag x fails epoch s).st.m_workGroupSize = s.m_workGroupSize := by
  simp only [set_dag, issue_andThen, emit_andThen, assign]
  split_ifs <;> simp

/-- The members `set_bind` does not assign. -/
theorem set_bind_frame (x : Externals) (fails : Event → Bool) (job : Job)
    (blob : List Nat) (s : OclKawPowRunner) :
    (set_bind x fails job blob s).st.m_epoch = s.m_epoch ∧
    (set_bind x fails job blob s).st.m_dagCapacity = s.m_dagCapacity ∧
    (set_bind x fails job blob s).st.m_lightCacheCapacity = s.m_lightCacheCapacity ∧
    (set_bind x fails job blob s).st.m_lightCacheSize = s.m_lightCacheSize ∧
    (set_bind x fails job blob s).st.m_dag = s.m_dag ∧
    (set_bind x fails job blob s).st.m_lightCache = s.m_lightCache ∧
    (set_bind x fails job blob s).st.m_workGroupSize = s.m_workGroupSize := by
  simp only [set_bind, issue_andThen, emit_andThen, assign]
  split_ifs <;> simp

/-- The members `set_lightCache_grow` does not assign. -/
theorem set_lightCache_grow_frame (x : Externals) (fails : Event → Bool) (epoch : Nat)
    (s : OclKawPowRunner) :
    (set_lightCache_grow x fails epoch s).st.m_epoch = s.m_epoch ∧
    (set_lightCache_grow x fails epoch s).st.m_dagCapacity = s.m_dagCapacity ∧
    (set_lightCache_grow x fails epoch s).st.m_dag = s.m_dag ∧
    (set_lightCache_grow x fails epoch s).st.m_blob = s.m_blob ∧
    (set_lightCache_grow x fails epoch s).st.input = s.input ∧
    (set_lightCache_grow x fails epoch s).st.m_workGroupSize = s.m_workGroupSize := by
  simp only [set_lightCache_grow, issue_andThen, emit_andThen, assign]
  split_ifs <;> simp

/-- The members `set_lightCache` does not assign. -/
theorem set_lightCache_frame (x : Externals) (fails : Event → Bool) (epoch : Nat)
    (s : OclKawPowRunner) :
    (set_lightCache x fails epoch s).st.m_epoch = s.m_epoch ∧
    (set_lightCache x fails epoch s).st.m_dagCapacity = s.m_dagCapacity ∧
    (set_lightCache x fails epoch s).st.m_dag = s.m_dag ∧
    (set_lightCache x fails epoch s).st.m_blob = s.m_blob ∧
    (set_lightCache x fails epoch s).st.input = s.input ∧
    (set_lightCache x fails epoch s).st.m_workGroupSize = s.m_workGroupSize := by
  unfold set_lightCache
  apply andThen_st_inv (fun t => t.m_epoch = s.m_epoch ∧ t.m_dagCapacity = s.m_dagCapacity ∧
    t.m_dag = s.m_dag ∧ t.m_blob = s.m_blob ∧ t.input = s.input ∧
    t.m_workGroupSize = s.m_workGroupSize)
  · simp
  intro _
  simp only [issue_st]
  have hg := set_lightCache_grow_frame x fails epoch s
  apply andThen_st_inv (fun t => t.m_epoch = s.m_epoch ∧ t.m_dagCapacity = s.m_dagCapacity ∧
    t.m_dag = s.m_dag ∧ t.m_blob = s.m_blob ∧ t.input = s.input ∧
    t.m_workGroupSize = s.m_workGroupSize)
  · exact hg
  intro _
  simp only [issue_st]
  exact hg

theorem dagLoop_st (fails : Event → Bool) (s : OclKawPowRunner) (dag_words : Nat) :
    ∀ fuel start, (dagLoop fails s dag_words fuel start).st = s := by
  intro fuel
  induction fuel with
  | zero => intro start; rfl
  | succ n ih =>
    intro start
    rw [dagLoop]
    split_ifs with h
    · rw [issue_andThen]
      split_ifs
      · rfl
      · exact ih _
    · rfl

/-- The runner after `set_regenerate`, however the fragment ended: the loop,
the argument binding and the final `finish` assign no member. -/
theorem set_regenerate_st (x : Externals) (fails : Event → Bool) (fuel epoch : Nat)
    (s : OclKawPowRunner) :
    (set_regenerate x fails fuel epoch s).st =
      if epoch ≠ s.m_epoch then (set_lightCache x fails epoch { s with m_epoch := epoch }).st
      else s := by
  unfold set_regenerate
  split_ifs with h
  · by_cases hl : (set_lightCache x fails epoch { s with m_epoch := epoch }).status = .done
    · rw [andThen_of_done _ _ hl]
      simp only [emit_andThen]
      apply andThen_st_inv (fun t => t = _)
      · exact dagLoop_st _ _ _ _ _
      · intro h1; rw [h1]; rfl
    · rw [andThen_of_not_done _ _ hl]
  · rfl

theorem set_regenerate_frame (x : Externals) (fails : Event → Bool) (fuel epoch : Nat)
    (s : OclKawPowRunner) :
    (set_regenerate x fails fuel epoch s).st.m_epoch = epoch ∧
    (set_regenerate x fails fuel epoch s).st.m_dagCapacity = s.m_dagCapacity ∧
    (set_regenerate x fails fuel epoch s).st.m_dag = s.m_dag ∧
    (set_regenerate x fails fuel epoch s).st.m_blob = s.m_blob ∧
    (set_regenerate x fails fuel epoch s).st.input = s.input ∧
    (set_regenerate x fails fuel epoch s).st.m_workGroupSize = s.m_workGroupSize := by
  rw [set_regenerate_st]
  split_ifs with h
  · have hf := set_lightCache_frame x fails epoch { s with m_epoch := epoch }
    exact ⟨hf.1, hf.2.1, hf.2.2.1, hf.2.2.2.1, hf.2.2.2.2.1, hf.2.2.2.2.2⟩
  · have : epoch = s.m_epoch := by simpa using h
    simp [this]

/-! ## Buffer capacities -/

theorem set_dag_capacity (x : Externals) (fails : Event → Bool) (epoch : Nat)
    (s : OclKawPowRunner) (hAlign : ∀ pos a, pos ≤ x.align pos a) :
    s.m_dagCapacity ≤ (set_dag x fails epoch s).st.m_dagCapacity ∧
    ((set_dag x fails epoch s).status = .done →
      x.dag_size epoch ≤ (set_dag x fails epoch s).st.m_dagCapacity) := by
  have ha := hAlign (x.dag_size epoch) (16 * 1024 * 1024)
  simp only [set_dag, issue_andThen, emit_andThen, assign]
  split_ifs with h1 h2
  · simp only [reduceCtorEq, false_implies, and_true]; omega
  · simp only [true_implies]; omega
  · simp only [true_implies]; omega

theorem set_lightCache_grow_capacity (x : Externals) (fails : Event → Bool) (epoch : Nat)
    (s : OclKawPowRunner) (hAlign : ∀ pos a, pos ≤ x.align pos a) :
    s.m_lightCacheCapacity ≤
      (set_lightCache_grow x fails epoch s).st.m_lightCacheCapacity := by
  have ha := hAlign (x.cacheSize epoch) x.defaultAlign
  simp only [set_lightCache_grow, issue_andThen, emit_andThen, assign]
  split_ifs <;> simp <;> omega

theorem set_lightCache_capacity (x : Externals) (fails : Event → Bool) (epoch : Nat)
    (s : OclKawPowRunner) (hAlign : ∀ pos a, pos ≤ x.align pos a) :
    s.m_lightCacheCapacity ≤ (set_lightCache x fails epoch s).st.m_lightCacheCapacity := by
  unfold set_lightCache
  apply andThen_st_inv (fun t => s.m_lightCacheCapacity ≤ t.m_lightCacheCapacity)
  · simp
  intro _
  simp only [issue_st]
  have hg := set_lightCache_grow_capacity x fails epoch s hAlign
  apply andThen_st_inv (fun t => s.m_lightCacheCapacity ≤ t.m_lightCacheCapacity)
  · exact hg
  intro _
  simp only [issue_st]
  exact hg

theorem set_regenerate_capacity (x : Externals) (fails : Event → Bool) (fuel epoch : Nat)
    (s : OclKawPowRunner) (hAlign : ∀ pos a, pos ≤ x.align pos a) :
    s.m_lightCacheCapacity ≤
      (set_regenerate x fails fuel epoch s).st.m_lightCacheCapacity := by
  rw [set_regenerate_st]
  split_ifs with h
  · exact set_lightCache_capacity x fails epoch { s with m_epoch := epoch } hAlign
  · exact Nat.le_refl _

/-- Both capacities after one `set`, however it ended. -/
theorem set_capacity (x : Externals) (fails : Event → Bool) (fuel : Nat)
    (s : OclKawPowRunner) (job : Job) (blob : List Nat)
    (hAlign : ∀ pos a, pos ≤ x.align pos a) :
    s.m_dagCapacity ≤ (set x fails fuel s job blob).st.m_dagCapacity ∧
    s.m_lightCacheCapacity ≤ (set x fails fuel s job blob).st.m_lightCacheCapacity := by
  rw [set_eq]
  apply andThen_st_inv
    (fun t => s.m_dagCapacity ≤ t.m_dagCapacity ∧
      s.m_lightCacheCapacity ≤ t.m_lightCacheCapacity)
  · have hf := set_program_frame x fails job s
    simp only [hf.2.1, hf.2.2.1]
    exact ⟨Nat.le_refl _, Nat.le_refl _⟩
  intro h1
  apply andThen_st_inv
    (fun t => s.m_dagCapacity ≤ t.m_dagCapacity ∧
      s.m_lightCacheCapacity ≤ t.m_lightCacheCapacity)
  · have hf := set_dag_frame x fails (epochOf x job) (set_program x fails job s).st
    have hc := (set_dag_capacity x fails (epochOf x job) (set_program x fails job s).st
      hAlign).1
    simp only [hf.2.1]
    exact ⟨Nat.le_trans h1.1 hc, h1.2⟩
  intro h2
  apply andThen_st_inv
    (fun t => s.m_dagCapacity ≤ t.m_dagCapacity ∧
      s.m_lightCacheCapacity ≤ t.m_lightCacheCapacity)
  · have hf := set_regenerate_frame x fails fuel (epochOf x job)
      (set_dag x fails (epochOf x job) (set_program x fails job s).st).st
    have hc := set_regenerate_capacity x fails fuel (epochOf x job)
      (set_dag x fails (epochOf x job) (set_program x fails job s).st).st hAlign
    simp only [hf.2.1]
    exact ⟨h2.1, Nat.le_trans h2.2 hc⟩
  intro h3
  have hf := set_bind_frame x fails job blob
    (set_regenerate x fails fuel (epochOf x job)
      (set_dag x fails (epochOf x job) (set_program x fails job s).st).st).st
  simp only [hf.2.1, hf.2.2.1]
  exact h3

/-- C4: provided `align` never returns less than its argument, after `set`
(whether it returned, raised, or was cut short) both buffer capacities are at
least what they were before; hence they never decrease along a sequence of
`set` calls. -/
theorem capacity_monotone (x : Externals) (hAlign : ∀ pos a, pos ≤ x.align pos a) :
    (∀ (fails : Event → Bool) (fuel : Nat) (s : OclKawPowRunner) (job : Job)
        (blob : List Nat),
      s.m_dagCapacity ≤ (set x fails fuel s job blob).st.m_dagCapacity ∧
      s.m_lightCacheCapacity ≤ (set x fails fuel s job blob).st.m_lightCacheCapacity) ∧
    (∀ (calls : List SetCall) (s : OclKawPowRunner),
      s.m_dagCapacity ≤ (setSeq x s calls).st.m_dagCapacity ∧
      s.m_lightCacheCapacity ≤ (setSeq x s calls).st.m_lightCacheCapacity) := by
  refine ⟨fun fails fuel s job blob => set_capacity x fails fuel s job blob hAlign, ?_⟩
  intro calls
  induction calls with
  | nil => intro s; exact ⟨Nat.le_refl _, Nat.le_refl _⟩
  | cons c rest ih =>
    intro s
    rw [setSeq]
    have h1 := set_capacity x c.fails c.fuel s c.job c.blob hAlign
    apply andThen_st_inv
      (fun t => s.m_dagCapacity ≤ t.m_dagCapacity ∧
        s.m_lightCacheCapacity ≤ t.m_lightCacheCapacity)
    · exact h1
    · intro _
      have h2 := ih (set x c.fails c.fuel s c.job c.blob).st
      exact ⟨Nat.le_trans h1.1 h2.1, Nat.le_trans h1.2 h2.2⟩

/-- Witness for C4: on the test configuration a `set` for epoch 1 grows the
dataset capacity from 0 to 32 MiB and the light-cache capacity from 0 to
2 MiB. -/
theorem capacity_monotone_witness :
    (∀ pos a, pos ≤ sampleExternals.align pos a) ∧
    (set sampleExternals noFailure 10 sampleRunner sampleJob sampleBlob).st.m_dagCapacity
      = 33554432 ∧
    (set sampleExternals noFailure 10 sampleRunner sampleJob sampleBlob).st.m_lightCacheCapacity
      = 2097152 ∧
    sampleRunner.m_dagCapacity ≤
      (set sampleExternals noFailure 10 sampleRunner sampleJob sampleBlob).st.m_dagCapacity ∧
    sampleRunner.m_lightCacheCapacity ≤
      (set sampleExternals noFailure 10 sampleRunner sampleJob
        sampleBlob).st.m_lightCacheCapacity :=
  ⟨fun _ _ => Nat.le_add_right _ _, by decide, by decide,
    (capacity_monotone sampleExternals (fun _ _ => Nat.le_add_right _ _)).1
      noFailure 10 sampleRunner sampleJob sampleBlob⟩

/-! ## The blob upload of `set` -/

/-- The content of `m_input` after a `set` that returned: only the first
`sizeof(m_blob)` bytes come from the blob. -/
theorem set_input (x : Externals) (fails : Event → Bool) (fuel : Nat)
    (s : OclKawPowRunner) (job : Job) (blob : List Nat)
    (h : (set x fails fuel s job blob).status = .done) :
    (set x fails fuel s job blob).st.input =
      blob.take x.sizeofPtr ++ s.input.drop x.sizeofPtr := by
  rw [set_eq] at h ⊢
  obtain ⟨_, h1, e1, _⟩ := andThen_st_out _ _ h
  obtain ⟨_, h2, e2, _⟩ := andThen_st_out _ _ h1
  obtain ⟨_, h3, e3, _⟩ := andThen_st_out _ _ h2
  rw [e1, e2, e3]
  have hp := set_program_frame x fails job s
  have hd := set_dag_frame x fails (epochOf x job) (set_program x fails job s).st
  have hr := set_regenerate_frame x fails fuel (epochOf x job)
    (set_dag x fails (epochOf x job) (set_program x fails job s).st).st
  have hin : (set_regenerate x fails fuel (epochOf x job)
      (set_dag x fails (epochOf x job) (set_program x fails job s).st).st).st.input
      = s.input := by
    rw [hr.2.2.2.2.1, hd.2.2.2.2.2.1, hp.2.2.2.2.2.2.2.1]
  revert h3
  simp only [set_bind, issue_andThen, emit_andThen, assign]
  split_ifs
  · intro h3; exact absurd h3 (by simp)
  · intro _; simp only [writeBytes, hin]

/-- C8: evaluation at the failing input. With 8-byte pointers, `set` on a
runner whose `m_input` holds 40 zero bytes and a blob of 40 bytes 255 returns
normally and leaves `m_input` holding 8 bytes 255 followed by 32 zero bytes,
which is not the blob; `run` on the resulting runner writes all 40 bytes. -/
theorem set_uploads_pointer_size :
    (set sampleExternals noFailure 10 sampleRunner sampleJob sampleBlob).status = .done ∧
    (set sampleExternals noFailure 10 sampleRunner sampleJob sampleBlob).st.input =
      List.replicate 8 255 ++ List.replicate 32 0 ∧
    (set sampleExternals noFailure 10 sampleRunner sampleJob sampleBlob).st.input ≠
      sampleBlob ∧
    (run noFailure sampleDevice
      (set sampleExternals noFailure 10 sampleRunner sampleJob sampleBlob).st 0
      sampleHashOutput).1.st.input = sampleBlob := by
  decide

/-! ## Wrap-around of the chunk counter -/

theorem andThen_status_of_done (a : Outcome) (f : OclKawPowRunner → Outcome)
    (h : a.status = .done) : (a.andThen f).status = (f a.st).status := by
  rw [andThen_of_done a f h]

/-- Above `2^32 - 2^18` words the counter wraps to a multiple of `N` below
`dag_words` again and again: the loop outlasts every fuel. -/
theorem dagLoop_diverges (fails : Event → Bool) (s : OclKawPowRunner) (dag_words : Nat)
    (hbig : 2 ^ 32 - 2 ^ 18 < dag_words)
    (hok : ∀ st, fails (.dagEnqueue st N s.m_workGroupSize) = false) :
    ∀ fuel start, start % N = 0 → start < 2 ^ 32 →
      (dagLoop fails s dag_words fuel start).status = .outOfFuel := by
  intro fuel
  induction fuel with
  | zero => intro start _ _; rfl
  | succ n ih =>
    intro start hdiv hlt
    have hN := N_eq
    rw [hN] at hdiv
    have hs : start < dag_words := by omega
    rw [dagLoop, if_pos hs, issue_andThen_ok _ _ _ _ (hok start)]
    apply ih
    · rw [hN]; omega
    · exact Nat.mod_lt _ (by decide)

/-- C10: evaluation at the failing input. For `dag_words = 2^32 - 1` the chunk
loop is still running after any number of iterations, and a `set` for a job
whose dataset has `2^32 - 1` nodes never returns. -/
theorem dag_loop_wraps_forever :
    (∀ fuel, (dagLoop noFailure sampleRunner (2 ^ 32 - 1) fuel 0).status = .outOfFuel) ∧
    dagWords hugeExternals (epochOf hugeExternals sampleJob) = 2 ^ 32 - 1 ∧
    (∀ fuel, (set hugeExternals noFailure fuel sampleRunner sampleJob sampleBlob).status
      = .outOfFuel) := by
  refine ⟨?_, by decide, ?_⟩
  · intro fuel
    exact dagLoop_diverges noFailure sampleRunner (2 ^ 32 - 1) (by decide) (fun _ => rfl)
      fuel 0 (by decide) (by decide)
  · intro fuel
    rw [set_eq]
    rw [andThen_status_of_done _ _ (by decide)]
    rw [andThen_status_of_done _ _ (by decide)]
    have hr : (set_regenerate hugeExternals noFailure fuel (epochOf hugeExternals sampleJob)
        (set_dag hugeExternals noFailure (epochOf hugeExternals sampleJob)
          (set_program hugeExternals noFailure sampleJob sampleRunner).st).st).status
        = .outOfFuel := by
      unfold set_regenerate
      rw [if_pos (by decide)]
      rw [andThen_status_of_done _ _ (by decide)]
      simp only [emit_andThen]
      rw [andThen_of_not_done]
      · exact dagLoop_diverges noFailure _ _ (by decide) (fun _ => rfl) fuel 0
          (by decide) (by decide)
      · rw [dagLoop_diverges noFailure _ _ (by decide) (fun _ => rfl) fuel 0
          (by decide) (by decide)]
        simp
    rw [andThen_of_not_done _ _ (by rw [hr]; simp)]
    exact hr

/-! ## What each phase of `set` issues when it ends normally -/

theorem set_program_done (x : Externals) (fails : Event → Bool) (job : Job)
    (s : OclKawPowRunner) (h : (set_program x fails job s).status = .done) :
    (set_program x fails job s).out =
      [.getProgram (job.height % 2 ^ 32),
       .createKernel (x.program (job.height % 2 ^ 32))
         (set_program x fails job s).st.m_searchKernel] := by
  revert h
  simp only [set_program, issue_andThen, assign]
  split_ifs <;> simp

theorem set_dag_done (x : Externals) (fails : Event → Bool) (epoch : Nat)
    (s : OclKawPowRunner) (h : (set_dag x fails epoch s).status = .done) :
    (x.dag_size epoch > s.m_dagCapacity ∧
      (set_dag x fails epoch s).out =
        [.release s.m_dag,
         .createBuffer (set_dag x fails epoch s).st.m_dag
           (set_dag x fails epoch s).st.m_dagCapacity false]) ∨
    (¬ x.dag_size epoch > s.m_dagCapacity ∧ (set_dag x fails epoch s).out = [] ∧
      (set_dag x fails epoch s).st = s) := by
  revert h
  simp only [set_dag, issue_andThen, emit_andThen, assign]
  split_ifs with h1 h2
  · simp
  · intro _; left; exact ⟨h1, rfl⟩
  · intro _; right; exact ⟨h1, rfl, rfl⟩

theorem set_lightCache_grow_done (x : Externals) (fails : Event → Bool) (epoch : Nat)
    (s : OclKawPowRunner) (h : (set_lightCache_grow x fails epoch s).status = .done) :
    (x.cacheSize epoch > s.m_lightCacheCapacity ∧
      (set_lightCache_grow x fails epoch s).out =
        [.release s.m_lightCache,
         .createBuffer (set_lightCache_grow x fails epoch s).st.m_lightCache
           (set_lightCache_grow x fails epoch s).st.m_lightCacheCapacity true]) ∨
    (¬ x.cacheSize epoch > s.m_lightCacheCapacity ∧
      (set_lightCache_grow x fails epoch s).out = [] ∧
      (set_lightCache_grow x fails epoch s).st = s) := by
  revert h
  simp only [set_lightCache_grow, issue_andThen, emit_andThen, assign]
  split_ifs with h1 h2
  · simp
  · intro _; left; exact ⟨h1, rfl⟩
  · intro _; right; exact ⟨h1, rfl, rfl⟩

theorem set_lightCache_done (x : Externals) (fails : Event → Bool) (epoch : Nat)
    (s : OclKawPowRunner) (h : (set_lightCache x fails epoch s).status = .done) :
    (set_lightCache x fails epoch s).st.m_lightCacheSize = x.cacheSize epoch ∧
    ((x.cacheSize epoch > s.m_lightCacheCapacity ∧
      (set_lightCache x fails epoch s).out =
        [.cacheInit epoch, .release s.m_lightCache,
         .createBuffer (set_lightCache x fails epoch s).st.m_lightCache
           (set_lightCache x fails epoch s).st.m_lightCacheCapacity true,
         .writeBuffer (set_lightCache x fails epoch s).st.m_lightCache true 0
           (set_lightCache x fails epoch s).st.m_lightCacheSize .cache]) ∨
     (¬ x.cacheSize epoch > s.m_lightCacheCapacity ∧
      (set_lightCache x fails epoch s).st.m_lightCache = s.m_lightCache ∧
      (set_lightCache x fails epoch s).st.m_lightCacheCapacity = s.m_lightCacheCapacity ∧
      (set_lightCache x fails epoch s).out =
        [.cacheInit epoch,
         .writeBuffer (set_lightCache x fails epoch s).st.m_lightCache true 0
           (set_lightCache x fails epoch s).st.m_lightCacheSize .cache])) := by
  unfold set_lightCache at h ⊢
  obtain ⟨h1, h2, e1, o1⟩ := andThen_st_out _ _ h
  obtain ⟨h3, h4, e2, o2⟩ := andThen_st_out _ _ h2
  rw [issue_status_done] at h1 h4
  simp only [issue_st] at h3 h4 e2 o2 e1 o1
  rw [e1, o1, e2, o2]
  simp only [issue_eq, h1, h4, if_false, Bool.false_eq_true]
  refine ⟨trivial, ?_⟩
  rcases set_lightCache_grow_done x fails epoch s h3 with ⟨hgt, hout⟩ | ⟨hle, hout, hst⟩
  · left
    refine ⟨hgt, ?_⟩
    rw [hout]
    rfl
  · right
    refine ⟨hle, ?_, ?_, ?_⟩
    · rw [hst]
    · rw [hst]
    · rw [hout]
      rfl

theorem dagLoop_congr (fails : Event → Bool) (s t : OclKawPowRunner) (dag_words : Nat)
    (h : s.m_workGroupSize = t.m_workGroupSize) :
    ∀ fuel start, (dagLoop fails s dag_words fuel start).out =
        (dagLoop fails t dag_words fuel start).out ∧
      (dagLoop fails s dag_words fuel start).status =
        (dagLoop fails t dag_words fuel start).status := by
  intro fuel
  induction fuel with
  | zero => intro start; exact ⟨rfl, rfl⟩
  | succ n ih =>
    intro start
    rw [dagLoop, dagLoop]
    split_ifs with hs
    · rw [issue_andThen, issue_andThen, h]
      split_ifs
      · exact ⟨rfl, rfl⟩
      · simp only [(ih _).1, (ih _).2, and_self]
    · exact ⟨rfl, rfl⟩

theorem dagLoop_out_kind (fails : Event → Bool) (s : OclKawPowRunner) (dag_words : Nat) :
    ∀ fuel start, ∀ e ∈ (dagLoop fails s dag_words fuel start).out,
      e.isDagDispatch = true := by
  intro fuel
  induction fuel with
  | zero => intro start e he; simp [dagLoop] at he
  | succ n ih =>
    intro start e he
    rw [dagLoop] at he
    split_ifs at he with hs
    · rw [issue_andThen] at he
      split_ifs at he
      · simp at he
      · rcases List.mem_cons.1 he with h1 | h1
        · rw [h1]; rfl
        · exact ih _ e h1
    · simp [assign] at he

theorem set_regenerate_done (x : Externals) (fails : Event → Bool) (fuel epoch : Nat)
    (s : OclKawPowRunner) (hne : epoch ≠ s.m_epoch)
    (h : (set_regenerate x fails fuel epoch s).status = .done) :
    (set_lightCache x fails epoch { s with m_epoch := epoch }).status = .done ∧
    (dagLoop fails (set_lightCache x fails epoch { s with m_epoch := epoch }).st
      (dagWords x epoch) fuel 0).status = .done ∧
    (set_regenerate x fails fuel epoch s).out =
      (set_lightCache x fails epoch { s with m_epoch := epoch }).out ++
        (.dagSetArgs 0 (set_lightCache x fails epoch { s with m_epoch := epoch }).st.m_lightCache
            (set_lightCache x fails epoch { s with m_epoch := epoch }).st.m_dag
            (dagWords x epoch)
            ((set_lightCache x fails epoch { s with m_epoch := epoch }).st.m_lightCacheSize
              / x.sizeofNode) ::
          ((dagLoop fails (set_lightCache x fails epoch { s with m_epoch := epoch }).st
              (dagWords x epoch) fuel 0).out ++ [.finish])) := by
  unfold set_regenerate at h ⊢
  rw [if_pos hne] at h ⊢
  obtain ⟨h1, h2, _, o1⟩ := andThen_st_out _ _ h
  rw [o1]
  simp only [emit_andThen] at h2 ⊢
  obtain ⟨h3, _, _, o2⟩ := andThen_st_out _ _ h2
  refine ⟨h1, h3, ?_⟩
  rw [o2]
  simp [emit]

theorem set_bind_done (x : Externals) (fails : Event → Bool) (job : Job)
    (blob : List Nat) (s : OclKawPowRunner)
    (h : (set_bind x fails job blob s).status = .done) :
    (set_bind x fails job blob s).out =
      [.setKernelArg s.m_searchKernel 0 s.m_dag,
       .setKernelArg s.m_searchKernel 1 s.m_input,
       .setKernelArg s.m_searchKernel 2 (job.target % 2 ^ 64),
       .setKernelArg s.m_searchKernel 3 0,
       .setKernelArg s.m_searchKernel 4 s.m_output,
       .writeBuffer s.m_input true 0 x.sizeofPtr .blob] ∧
    (set_bind x fails job blob s).st.m_searchKernel = s.m_searchKernel := by
  revert h
  simp only [set_bind, issue_andThen, emit_andThen, assign]
  split_ifs <;> simp

/-- The way `set_program`, `set_dag` and `set_bind` can end, and the kind of
command they issue. -/
theorem set_program_kind (x : Externals) (fails : Event → Bool) (job : Job)
    (s : OclKawPowRunner) :
    (∀ e ∈ (set_program x fails job s).out,
      e.isRegeneration = false ∧ e.isJobBinding = false ∧ e.isTransitionStep = false) ∧
    (∀ e, (set_program x fails job s).status = .raised e → e.isTransitionStep = false) ∧
    (set_program x fails job s).status ≠ .outOfFuel := by
  simp only [set_program, issue_andThen, assign]
  split_ifs <;> simp [Event.isRegeneration, Event.isJobBinding, Event.isTransitionStep]

theorem set_dag_kind (x : Externals) (fails : Event → Bool) (epoch : Nat)
    (s : OclKawPowRunner) :
    (∀ e ∈ (set_dag x fails epoch s).out,
      e.isRegeneration = false ∧ e.isJobBinding = false ∧ e.isTransitionStep = false) ∧
    (∀ e, (set_dag x fails epoch s).status = .raised e → e.isTransitionStep = false) ∧
    (set_dag x fails epoch s).status ≠ .outOfFuel := by
  simp only [set_dag, issue_andThen, emit_andThen, assign]
  split_ifs <;> simp [Event.isRegeneration, Event.isJobBinding, Event.isTransitionStep]

theorem set_bind_kind (x : Externals) (fails : Event → Bool) (job : Job)
    (blob : List Nat) (s : OclKawPowRunner) :
    (∀ e ∈ (set_bind x fails job blob s).out,
      e.isRegeneration = false ∧ e.isTransitionStep = false) ∧
    (∀ e, (set_bind x fails job blob s).status = .raised e → e.isTransitionStep = false) ∧
    (set_bind x fails job blob s).status ≠ .outOfFuel := by
  simp only [set_bind, issue_andThen, emit_andThen, assign]
  split_ifs <;> simp [Event.isRegeneration, Event.isTransitionStep]

theorem set_regenerate_same (x : Externals) (fails : Event → Bool) (fuel epoch : Nat)
    (s : OclKawPowRunner) (h : epoch = s.m_epoch) :
    set_regenerate x fails fuel epoch s = assign s := by
  unfold set_regenerate
  rw [if_neg (by simpa using h)]

/-- A `set` for the epoch the runner already has issues no regeneration
command and keeps the epoch and the light-cache members, however it ends. -/
theorem set_same_epoch (x : Externals) (fails : Event → Bool) (fuel : Nat)
    (s : OclKawPowRunner) (job : Job) (blob : List Nat)
    (h : epochOf x job = s.m_epoch) :
    ((set x fails fuel s job blob).st.m_epoch = s.m_epoch ∧
      (set x fails fuel s job blob).st.m_lightCache = s.m_lightCache ∧
      (set x fails fuel s job blob).st.m_lightCacheCapacity = s.m_lightCacheCapacity ∧
      (set x fails fuel s job blob).st.m_lightCacheSize = s.m_lightCacheSize) ∧
    ∀ e ∈ (set x fails fuel s job blob).out,
      e.isRegeneration = false ∧ e.isTransitionStep = false := by
  rw [set_eq]
  have hp := set_program_frame x fails job s
  apply andThen_inv (fun t => t.m_epoch = s.m_epoch ∧ t.m_lightCache = s.m_lightCache ∧
    t.m_lightCacheCapacity = s.m_lightCacheCapacity ∧
    t.m_lightCacheSize = s.m_lightCacheSize)
    (fun e => e.isRegeneration = false ∧ e.isTransitionStep = false)
  · exact ⟨⟨hp.1, hp.2.2.2.2.2.1, hp.2.2.1, hp.2.2.2.1⟩,
      fun e he => ⟨((set_program_kind x fails job s).1 e he).1,
        ((set_program_kind x fails job s).1 e he).2.2⟩⟩
  intro h1
  have hd := set_dag_frame x fails (epochOf x job) (set_program x fails job s).st
  apply andThen_inv (fun t => t.m_epoch = s.m_epoch ∧ t.m_lightCache = s.m_lightCache ∧
    t.m_lightCacheCapacity = s.m_lightCacheCapacity ∧
    t.m_lightCacheSize = s.m_lightCacheSize)
    (fun e => e.isRegeneration = false ∧ e.isTransitionStep = false)
  · refine ⟨⟨?_, ?_, ?_, ?_⟩, fun e he => ⟨((set_dag_kind x fails _ _).1 e he).1,
      ((set_dag_kind x fails _ _).1 e he).2.2⟩⟩
    · rw [hd.1]; exact h1.1
    · rw [hd.2.2.2.1]; exact h1.2.1
    · rw [hd.2.1]; exact h1.2.2.1
    · rw [hd.2.2.1]; exact h1.2.2.2
  intro h2
  rw [set_regenerate_same x fails fuel _ _ (h.trans h2.1.symm)]
  simp only [assign_andThen]
  have hb := set_bind_frame x fails job blob (set_dag x fails (epochOf x job) (set_program x fails job s).st).st
  refine ⟨⟨?_, ?_, ?_, ?_⟩, fun e he => (set_bind_kind x fails job blob _).1 e he⟩
  · rw [hb.1]; exact h2.1
  · rw [hb.2.2.2.2.2.1]; exact h2.2.1
  · rw [hb.2.2.1]; exact h2.2.2.1
  · rw [hb.2.2.2.1]; exact h2.2.2.2

/-- The four phases of a `set` that returned. -/
theorem set_done (x : Externals) (fails : Event → Bool) (fuel : Nat)
    (s : OclKawPowRunner) (job : Job) (blob : List Nat)
    (h : (set x fails fuel s job blob).status = .done) :
    (set_program x fails job s).status = .done ∧ (set_dag x fails (epochOf x job) (set_program x fails job s).st).status = .done ∧ (set_regenerate x fails fuel (epochOf x job) (set_dag x fails (epochOf x job) (set_program x fails job s).st).st).status = .done ∧ (set_bind x fails job blob (set_regenerate x fails fuel (epochOf x job) (set_dag x fails (epochOf x job) (set_program x fails job s).st).st).st).status = .done ∧
    (set x fails fuel s job blob).st = (set_bind x fails job blob (set_regenerate x fails fuel (epochOf x job) (set_dag x fails (epochOf x job) (set_program x fails job s).st).st).st).st ∧
    (set x fails fuel s job blob).out = (set_program x fails job s).out ++ ((set_dag x fails (epochOf x job) (set_program x fails job s).st).out ++ ((set_regenerate x fails fuel (epochOf x job) (set_dag x fails (epochOf x job) (set_program x fails job s).st).st).out ++ (set_bind x fails job blob (set_regenerate x fails fuel (epochOf x job) (set_dag x fails (epochOf x job) (set_program x fails job s).st).st).st).out)) := by
  rw [set_eq] at h ⊢
  obtain ⟨h1, h1', e1, o1⟩ := andThen_st_out _ _ h
  obtain ⟨h2, h2', e2, o2⟩ := andThen_st_out _ _ h1'
  obtain ⟨h3, h3', e3, o3⟩ := andThen_st_out _ _ h2'
  refine ⟨h1, h2, h3, h3', ?_, ?_⟩
  · rw [e1, e2, e3]
  · rw [o1, o2, o3]

/-- The commands of a `set` that returned after an epoch change, in order:
the program and kernel lookup (`pre`), the dataset buffer growth if any, the
light-cache init, the light-cache buffer growth if any, the upload, the
argument binding of the generation kernel, the chunk dispatches, `finish`,
and the job binding, which starts by passing `m_dag` to the search kernel. -/
theorem set_done_changed (x : Externals) (fails : Event → Bool) (fuel : Nat)
    (s : OclKawPowRunner) (job : Job) (blob : List Nat)
    (h : (set x fails fuel s job blob).status = .done)
    (hne : epochOf x job ≠ s.m_epoch) :
    ∃ pre post,
      (set x fails fuel s job blob).out =
        pre ++
        (if x.dag_size (epochOf x job) > s.m_dagCapacity then
          [.release s.m_dag,
           .createBuffer (set x fails fuel s job blob).st.m_dag
             (set x fails fuel s job blob).st.m_dagCapacity false]
         else []) ++
        [.cacheInit (epochOf x job)] ++
        (if x.cacheSize (epochOf x job) > s.m_lightCacheCapacity then
          [.release s.m_lightCache,
           .createBuffer (set x fails fuel s job blob).st.m_lightCache
             (set x fails fuel s job blob).st.m_lightCacheCapacity true]
         else []) ++
        [.writeBuffer (set x fails fuel s job blob).st.m_lightCache true 0
           (set x fails fuel s job blob).st.m_lightCacheSize .cache,
         .dagSetArgs 0 (set x fails fuel s job blob).st.m_lightCache
           (set x fails fuel s job blob).st.m_dag (dagWords x (epochOf x job))
           ((set x fails fuel s job blob).st.m_lightCacheSize / x.sizeofNode)] ++
        (dagLoop fails (set x fails fuel s job blob).st (dagWords x (epochOf x job))
          fuel 0).out ++
        [.finish] ++
        (.setKernelArg (set x fails fuel s job blob).st.m_searchKernel 0
          (set x fails fuel s job blob).st.m_dag :: post) ∧
      (∀ e ∈ pre, e.isRegeneration = false ∧ e.isTransitionStep = false) ∧
      (∀ e ∈ post, e.isRegeneration = false ∧ e.isTransitionStep = false) ∧
      (set x fails fuel s job blob).st.m_epoch = epochOf x job ∧
      (set x fails fuel s job blob).st.m_lightCacheSize = x.cacheSize (epochOf x job) ∧
      (dagLoop fails (set x fails fuel s job blob).st (dagWords x (epochOf x job))
        fuel 0).status = .done := by
  obtain ⟨hP, hD, hR, hB, est, eout⟩ := set_done x fails fuel s job blob h
  have fp := set_program_frame x fails job s
  have fd := set_dag_frame x fails (epochOf x job) (set_program x fails job s).st
  have fr := set_regenerate_frame x fails fuel (epochOf x job) (set_dag x fails (epochOf x job) (set_program x fails job s).st).st
  have fb := set_bind_frame x fails job blob (set_regenerate x fails fuel (epochOf x job) (set_dag x fails (epochOf x job) (set_program x fails job s).st).st).st
  have hne2 : epochOf x job ≠ (set_dag x fails (epochOf x job) (set_program x fails job s).st).st.m_epoch := by rw [fd.1, fp.1]; exact hne
  obtain ⟨hL, hloop, eR⟩ := set_regenerate_done x fails fuel _ _ hne2 hR
  have eRst := set_regenerate_st x fails fuel (epochOf x job) (set_dag x fails (epochOf x job) (set_program x fails job s).st).st
  rw [if_pos hne2] at eRst
  obtain ⟨hsize, hlc⟩ := set_lightCache_done x fails (epochOf x job) _ hL
  obtain ⟨eB, kB⟩ := set_bind_done x fails job blob _ hB
  have hwg : (set_lightCache x fails (epochOf x job) { (set_dag x fails (epochOf x job) (set_program x fails job s).st).st with m_epoch := epochOf x job }).st.m_workGroupSize = (set_bind x fails job blob (set_regenerate x fails fuel (epochOf x job) (set_dag x fails (epochOf x job) (set_program x fails job s).st).st).st).st.m_workGroupSize := by
    rw [fb.2.2.2.2.2.2, eRst]
  have hcong := dagLoop_congr fails (set_lightCache x fails (epochOf x job) { (set_dag x fails (epochOf x job) (set_program x fails job s).st).st with m_epoch := epochOf x job }).st (set_bind x fails job blob (set_regenerate x fails fuel (epochOf x job) (set_dag x fails (epochOf x job) (set_program x fails job s).st).st).st).st (dagWords x (epochOf x job)) hwg fuel 0
  -- the members of the final state in terms of the phases
  have e_dag : (set_bind x fails job blob (set_regenerate x fails fuel (epochOf x job) (set_dag x fails (epochOf x job) (set_program x fails job s).st).st).st).st.m_dag = (set_dag x fails (epochOf x job) (set_program x fails job s).st).st.m_dag := by rw [fb.2.2.2.2.1, fr.2.2.1]
  have e_cap : (set_bind x fails job blob (set_regenerate x fails fuel (epochOf x job) (set_dag x fails (epochOf x job) (set_program x fails job s).st).st).st).st.m_dagCapacity = (set_dag x fails (epochOf x job) (set_program x fails job s).st).st.m_dagCapacity := by rw [fb.2.1, fr.2.1]
  have e_lc : (set_bind x fails job blob (set_regenerate x fails fuel (epochOf x job) (set_dag x fails (epochOf x job) (set_program x fails job s).st).st).st).st.m_lightCache = (set_lightCache x fails (epochOf x job) { (set_dag x fails (epochOf x job) (set_program x fails job s).st).st with m_epoch := epochOf x job }).st.m_lightCache := by rw [fb.2.2.2.2.2.1, eRst]
  have e_lcc : (set_bind x fails job blob (set_regenerate x fails fuel (epochOf x job) (set_dag x fails (epochOf x job) (set_program x fails job s).st).st).st).st.m_lightCacheCapacity = (set_lightCache x fails (epochOf x job) { (set_dag x fails (epochOf x job) (set_program x fails job s).st).st with m_epoch := epochOf x job }).st.m_lightCacheCapacity := by
    rw [fb.2.2.1, eRst]
  have e_lcs : (set_bind x fails job blob (set_regenerate x fails fuel (epochOf x job) (set_dag x fails (epochOf x job) (set_program x fails job s).st).st).st).st.m_lightCacheSize = (set_lightCache x fails (epochOf x job) { (set_dag x fails (epochOf x job) (set_program x fails job s).st).st with m_epoch := epochOf x job }).st.m_lightCacheSize := by rw [fb.2.2.2.1, eRst]
  have e_ldag : (set_lightCache x fails (epochOf x job) { (set_dag x fails (epochOf x job) (set_program x fails job s).st).st with m_epoch := epochOf x job }).st.m_dag = (set_dag x fails (epochOf x job) (set_program x fails job s).st).st.m_dag := by rw [← eRst, fr.2.2.1]
  have e_ep : (set_bind x fails job blob (set_regenerate x fails fuel (epochOf x job) (set_dag x fails (epochOf x job) (set_program x fails job s).st).st).st).st.m_epoch = epochOf x job := by rw [fb.1, fr.1]
  have e_scap : (set_dag x fails (epochOf x job) (set_program x fails job s).st).st.m_lightCacheCapacity = s.m_lightCacheCapacity := by rw [fd.2.1, fp.2.2.1]
  have e_slc : (set_dag x fails (epochOf x job) (set_program x fails job s).st).st.m_lightCache = s.m_lightCache := by
    rw [fd.2.2.2.1, fp.2.2.2.2.2.1]
  refine ⟨(set_program x fails job s).out, (set_bind x fails job blob (set_regenerate x fails fuel (epochOf x job) (set_dag x fails (epochOf x job) (set_program x fails job s).st).st).st).out.tail, ?_, ?_, ?_, ?_, ?_, ?_⟩
  · rw [est, eout, eR, e_dag, e_cap, e_lc, e_lcc, e_lcs, ← hcong.1, e_ldag, kB]
    have hdag : (set_dag x fails (epochOf x job) (set_program x fails job s).st).out =
        (if x.dag_size (epochOf x job) > s.m_dagCapacity then
          [Event.release s.m_dag, Event.createBuffer (set_dag x fails (epochOf x job) (set_program x fails job s).st).st.m_dag (set_dag x fails (epochOf x job) (set_program x fails job s).st).st.m_dagCapacity false]
         else []) := by
      rcases set_dag_done x fails (epochOf x job) _ hD with ⟨hgt, ho⟩ | ⟨hle, ho, _⟩
      · rw [fp.2.1] at hgt
        rw [if_pos hgt, ho, fp.2.2.2.2.1]
      · rw [fp.2.1] at hle
        rw [if_neg hle, ho]
    have hlco : (set_lightCache x fails (epochOf x job) { (set_dag x fails (epochOf x job) (set_program x fails job s).st).st with m_epoch := epochOf x job }).out = [Event.cacheInit (epochOf x job)] ++
        (if x.cacheSize (epochOf x job) > s.m_lightCacheCapacity then
          [Event.release s.m_lightCache,
           Event.createBuffer (set_lightCache x fails (epochOf x job) { (set_dag x fails (epochOf x job) (set_program x fails job s).st).st with m_epoch := epochOf x job }).st.m_lightCache (set_lightCache x fails (epochOf x job) { (set_dag x fails (epochOf x job) (set_program x fails job s).st).st with m_epoch := epochOf x job }).st.m_lightCacheCapacity true]
         else []) ++
        [Event.writeBuffer (set_lightCache x fails (epochOf x job) { (set_dag x fails (epochOf x job) (set_program x fails job s).st).st with m_epoch := epochOf x job }).st.m_lightCache true 0 (set_lightCache x fails (epochOf x job) { (set_dag x fails (epochOf x job) (set_program x fails job s).st).st with m_epoch := epochOf x job }).st.m_lightCacheSize .cache] := by
      rcases hlc with ⟨hgt, ho⟩ | ⟨hle, _, _, ho⟩
      · simp only [e_scap] at hgt
        rw [if_pos hgt, ho]
        simp only [e_slc]
        rfl
      · simp only [e_scap] at hle
        rw [if_neg hle, ho]
        rfl
    rw [hdag, hlco, eB]
    simp only [List.append_assoc, List.cons_append, List.nil_append, List.tail_cons,
      fr.2.2.1]
  · intro e he
    exact ⟨((set_program_kind x fails job s).1 e he).1,
      ((set_program_kind x fails job s).1 e he).2.2⟩
  · intro e he
    exact (set_bind_kind x fails job blob _).1 e (List.mem_of_mem_tail he)
  · rw [est]; exact e_ep
  · rw [est, e_lcs]; exact hsize
  · rw [est, ← hcong.2]; exact hloop

/-! ## Regeneration happens exactly on an epoch change -/

theorem sublist_trace (pre a b loop post : List Event) (c u d f : Event) :
    ([c, u, d] ++ loop ++ [f]).Sublist
      (pre ++ a ++ [c] ++ b ++ [u, d] ++ loop ++ [f] ++ post) := by
  simp only [List.append_assoc]
  refine List.Sublist.trans ?_ (List.sublist_append_right pre _)
  refine List.Sublist.trans ?_ (List.sublist_append_right a _)
  show (c :: ([u, d] ++ (loop ++ [f]))).Sublist (c :: (b ++ ([u, d] ++ (loop ++ ([f] ++ post)))))
  refine List.Sublist.cons₂ c ?_
  refine List.Sublist.trans ?_ (List.sublist_append_right b _)
  refine List.Sublist.append (List.Sublist.refl _) ?_
  refine List.Sublist.append (List.Sublist.refl _) ?_
  exact List.sublist_append_left [f] post

theorem filter_dispatch_nil (l : List Event) (h : ∀ e ∈ l, e.isRegeneration = false) :
    l.filter Event.isDagDispatch = [] := by
  rw [List.filter_eq_nil_iff]
  intro e he hd
  have := h e he
  cases e <;> simp_all [Event.isDagDispatch, Event.isRegeneration]

/-- C5: `set` regenerates exactly when the job's epoch differs from `m_epoch`;
the epoch is `m_blockHeight / EPOCH_LENGTH`, which is `height / EPOCH_LENGTH`
for every height that fits the 32-bit member `m_blockHeight`.
With an equal epoch it issues no regeneration command (in particular no chunk
dispatch) and keeps `m_epoch`, the light-cache buffer, its capacity and
`m_lightCacheSize`, however it ends. With a different epoch, a `set` that
returns has `m_epoch` equal to the job's epoch and has issued, in this order,
the light-cache init, the light-cache upload, the argument binding of the
generation kernel, every dispatch of the chunk loop, and `finish`. -/
theorem regeneration_iff_epoch_changed (x : Externals) (fails : Event → Bool) (fuel : Nat)
    (s : OclKawPowRunner) (job : Job) (blob : List Nat) :
    (job.height < 2 ^ 32 → epochOf x job = job.height / x.EPOCH_LENGTH) ∧
    (epochOf x job = s.m_epoch →
      (∀ e ∈ (set x fails fuel s job blob).out, e.isRegeneration = false) ∧
      (set x fails fuel s job blob).out.filter Event.isDagDispatch = [] ∧
      (set x fails fuel s job blob).st.m_epoch = s.m_epoch ∧
      (set x fails fuel s job blob).st.m_lightCache = s.m_lightCache ∧
      (set x fails fuel s job blob).st.m_lightCacheCapacity = s.m_lightCacheCapacity ∧
      (set x fails fuel s job blob).st.m_lightCacheSize = s.m_lightCacheSize) ∧
    (epochOf x job ≠ s.m_epoch → (set x fails fuel s job blob).status = .done →
      (set x fails fuel s job blob).st.m_epoch = epochOf x job ∧
      (dagLoop fails (set x fails fuel s job blob).st (dagWords x (epochOf x job)) fuel 0).status = .done ∧
      (set x fails fuel s job blob).out.filter Event.isDagDispatch =
        (dagLoop fails (set x fails fuel s job blob).st (dagWords x (epochOf x job)) fuel 0).out ∧
      ([Event.cacheInit (epochOf x job),
        Event.writeBuffer (set x fails fuel s job blob).st.m_lightCache true 0 (set x fails fuel s job blob).st.m_lightCacheSize .cache,
        Event.dagSetArgs 0 (set x fails fuel s job blob).st.m_lightCache (set x fails fuel s job blob).st.m_dag (dagWords x (epochOf x job))
          ((set x fails fuel s job blob).st.m_lightCacheSize / x.sizeofNode)] ++
        (dagLoop fails (set x fails fuel s job blob).st (dagWords x (epochOf x job)) fuel 0).out ++
        [Event.finish]).Sublist (set x fails fuel s job blob).out) := by
  refine ⟨fun hlt => by rw [epochOf, Nat.mod_eq_of_lt hlt], ?_, ?_⟩
  · intro heq
    obtain ⟨hf, hk⟩ := set_same_epoch x fails fuel s job blob heq
    exact ⟨fun e he => (hk e he).1, filter_dispatch_nil _ (fun e he => (hk e he).1),
      hf.1, hf.2.1, hf.2.2.1, hf.2.2.2⟩
  · intro hne hdone
    obtain ⟨pre, post, hout, hpre, hpost, hep, _, hloop⟩ :=
      set_done_changed x fails fuel s job blob hdone hne
    refine ⟨hep, hloop, ?_, ?_⟩
    · rw [hout]
      simp only [List.filter_append]
      rw [filter_dispatch_nil pre (fun e he => (hpre e he).1)]
      have hl : List.filter Event.isDagDispatch
          (dagLoop fails (set x fails fuel s job blob).st (dagWords x (epochOf x job)) fuel 0).out =
          (dagLoop fails (set x fails fuel s job blob).st (dagWords x (epochOf x job)) fuel 0).out :=
        List.filter_eq_self.2 (dagLoop_out_kind fails _ _ _ _)
      rw [hl]
      have hp : List.filter Event.isDagDispatch
          (Event.setKernelArg (set x fails fuel s job blob).st.m_searchKernel 0 (set x fails fuel s job blob).st.m_dag :: post) = [] := by
        rw [List.filter_cons_of_neg (by simp [Event.isDagDispatch])]
        exact filter_dispatch_nil post (fun e he => (hpost e he).1)
      rw [hp]
      split_ifs <;> simp [Event.isDagDispatch]
    · rw [hout]
      exact sublist_trace _ _ _ _ _ _ _ _ _

/-- Witness for C5: on the test configuration a `set` for epoch 1 from a
runner at epoch 0 regenerates with two chunk dispatches; a `set` for epoch 0
issues none. -/
theorem regeneration_iff_epoch_changed_witness :
    epochOf sampleExternals sampleJob0 = sampleRunner.m_epoch ∧
    (set sampleExternals noFailure 10 sampleRunner sampleJob0 sampleBlob).out.filter
      Event.isDagDispatch = [] ∧
    epochOf sampleExternals sampleJob ≠ sampleRunner.m_epoch ∧
    (set sampleExternals noFailure 10 sampleRunner sampleJob sampleBlob).status = .done ∧
    (set sampleExternals noFailure 10 sampleRunner sampleJob sampleBlob).st.m_epoch = 1 ∧
    (set sampleExternals noFailure 10 sampleRunner sampleJob sampleBlob).out.filter
      Event.isDagDispatch = [.dagEnqueue 0 N 32, .dagEnqueue (2 ^ 18) N 32] := by
  have h := regeneration_iff_epoch_changed sampleExternals noFailure 10 sampleRunner
  have h0 := (h sampleJob0 sampleBlob).2.1 (by decide)
  have h1 := (h sampleJob sampleBlob).2.2 (by decide) (by decide)
  refine ⟨by decide, h0.2.1, by decide, by decide, h1.1, ?_⟩
  rw [h1.2.2.1]
  decide

/-! ## A failure inside the epoch transition -/

end xmrig
